import Mathlib

/-!
Verification of the strategy execution core of the jesse trading framework
(`jesse/strategies/Strategy.py`), as a shallow embedding in Lean 4.

Quantities and prices are modelled as rationals; Python lists become Lean
lists; exceptions become `Except` values or explicit raised-flags; calls to
the broker become values of an explicit `BrokerCall` event type.
-/

namespace Jesse

/-- `jesse.enums.sides`: the two order sides. -/
inductive Side
| buy
| sell
deriving DecidableEq

/-- `jesse.enums.trade_types`: direction of a trade. -/
inductive TradeType
| long
| short
deriving DecidableEq

/-- `jesse.enums.order_roles`: semantic role tags carried by orders. -/
inductive OrderRole
| openPosition
| increasePosition
| reducePosition
| closePosition
deriving DecidableEq

/-- Modelled from the spec: `jh.side_to_type` maps side BUY to trade type
long and SELL to short (spec section 6; consistent with
`trade.type = LONG if order.side == BUY else SHORT` in
`_log_position_update`). The helper module itself is not under `src/`. -/
def sideToType : Side → TradeType
| Side.buy => TradeType.long
| Side.sell => TradeType.short

/-- The broker interface consumed by the strategy (`jesse.services.broker`):
each order-submitting method of the broker, with its arguments, plus the two
cancellation methods. -/
inductive BrokerCall
| buyAt (qty price : ℚ) (role : OrderRole)
| sellAt (qty price : ℚ) (role : OrderRole)
| buyAtMarket (qty : ℚ) (role : OrderRole)
| sellAtMarket (qty : ℚ) (role : OrderRole)
| startProfitAt (side : Side) (qty price : ℚ) (role : OrderRole)
| stopLossAt (qty price : ℚ) (role : OrderRole)
| reducePositionAt (qty price : ℚ) (role : OrderRole)
| cancelOrder (id : ℕ)
| cancelAllOrders
deriving DecidableEq

/-- The lifecycle handlers that `_on_updated_position` can dispatch to. -/
inductive Handler
| onOpenPosition
| onTakeProfit
| onStopLoss
| onIncreasedPosition
| onReducedPosition
deriving DecidableEq

/-- Role reassignment of `_on_updated_position` (Strategy.py lines 120-128):
the executed order's role is upgraded to INCREASE_POSITION when it was
OPEN_POSITION but the absolute position quantity differs from the absolute
order quantity, and to REDUCE_POSITION when it was CLOSE_POSITION but the
position is still open. `posQty` is the post-execution position quantity. -/
def reclassifyRole (role : OrderRole) (posQty orderQty : ℚ) (posIsOpen : Bool) :
    OrderRole :=
  let role1 :=
    if role = OrderRole.openPosition ∧ |posQty| ≠ |orderQty| then
      OrderRole.increasePosition
    else role
  if role1 = OrderRole.closePosition ∧ posIsOpen = true then
    OrderRole.reducePosition
  else role1

/-- The dispatch chain at the end of `_on_updated_position` (lines 132-141):
selects the lifecycle handler from the (already reassigned) role, using
membership of the order in the take-profit / stop-loss baskets to split the
CLOSE_POSITION case. Returns `none` when no branch matches. -/
def dispatchHandler (role : OrderRole) (inTakeProfitBasket inStopLossBasket : Bool) :
    Option Handler :=
  if role = OrderRole.openPosition then some Handler.onOpenPosition
  else if role = OrderRole.closePosition ∧ inTakeProfitBasket = true then
    some Handler.onTakeProfit
  else if role = OrderRole.closePosition ∧ inStopLossBasket = true then
    some Handler.onStopLoss
  else if role = OrderRole.increasePosition then some Handler.onIncreasedPosition
  else if role = OrderRole.reducePosition then some Handler.onReducedPosition
  else none

/-- Direct transcription of the control flow of `_on_updated_position`
(lines 112-141): the `role` local is conditionally reassigned twice in
sequence, then the if/elif chain picks the handler. -/
def onUpdatedPositionHandler (role : OrderRole) (posQty orderQty : ℚ)
    (posIsOpen inTakeProfitBasket inStopLossBasket : Bool) : Option Handler :=
  let role :=
    if role = OrderRole.openPosition ∧ |posQty| ≠ |orderQty| then
      OrderRole.increasePosition
    else role
  let role :=
    if role = OrderRole.closePosition ∧ posIsOpen = true then
      OrderRole.reducePosition
    else role
  if role = OrderRole.openPosition then some Handler.onOpenPosition
  else if role = OrderRole.closePosition ∧ inTakeProfitBasket = true then
    some Handler.onTakeProfit
  else if role = OrderRole.closePosition ∧ inStopLossBasket = true then
    some Handler.onStopLoss
  else if role = OrderRole.increasePosition then some Handler.onIncreasedPosition
  else if role = OrderRole.reducePosition then some Handler.onReducedPosition
  else none

/-- The `is_reduced` property (lines 66-75): `None` when the position is
closed, otherwise whether the position quantity is strictly below the
initial quantity. -/
def is_reduced (posIsClose : Bool) (posQty initialQty : ℚ) : Option Bool :=
  if posIsClose = true then none
  else some (decide (posQty < initialQty))

/-- The `is_increased` property (lines 77-82): `None` when the position is
closed, otherwise whether the position quantity is strictly above the
initial quantity. -/
def is_increased (posIsClose : Bool) (posQty initialQty : ℚ) : Option Bool :=
  if posIsClose = true then none
  else some (decide (initialQty < posQty))

/-- One iteration of the entry-submission loop of `_execute_long`
(lines 181-196): given the mark price `m` and a normalized row
`(q, p)`, the strategy issues a stop-entry when `p > m`, a limit buy when
`p < m`, and a market buy when `p = m`; `none` when no branch of the
if/elif chain matches (impossible over the rationals). -/
def entryCallLong (m q p : ℚ) : Option BrokerCall :=
  if p > m then
    some (BrokerCall.startProfitAt Side.buy q p OrderRole.openPosition)
  else if p < m then
    some (BrokerCall.buyAt q p OrderRole.openPosition)
  else if p = m then
    some (BrokerCall.buyAtMarket q OrderRole.openPosition)
  else none

/-- One iteration of the entry-submission loop of `_execute_short`
(lines 310-325): stop-entry with side SELL when `p < m`, limit sell when
`p > m`, market sell when `p = m`. -/
def entryCallShort (m q p : ℚ) : Option BrokerCall :=
  if p < m then
    some (BrokerCall.startProfitAt Side.sell q p OrderRole.openPosition)
  else if p > m then
    some (BrokerCall.sellAt q p OrderRole.openPosition)
  else if p = m then
    some (BrokerCall.sellAtMarket q OrderRole.openPosition)
  else none

/-- One iteration of the entry re-submission loop in the SHORT branch of
`_detect_and_handle_entry_and_exit_modifications` (lines 459-474).
Transcribed exactly as written in the source: the `p > m` branch calls
`start_profit_at` with side `sides.BUY`, the `p < m` branch calls
`sell_at`, and the `p = m` branch calls `sell_at_market`. -/
def reconcileShortEntryCall (m q p : ℚ) : Option BrokerCall :=
  if p > m then
    some (BrokerCall.startProfitAt Side.buy q p OrderRole.openPosition)
  else if p < m then
    some (BrokerCall.sellAt q p OrderRole.openPosition)
  else if p = m then
    some (BrokerCall.sellAtMarket q OrderRole.openPosition)
  else none

/-- One iteration of the entry re-submission loop in the LONG branch of
`_detect_and_handle_entry_and_exit_modifications` (lines 424-439), which
matches `_execute_long`. -/
def reconcileLongEntryCall (m q p : ℚ) : Option BrokerCall :=
  entryCallLong m q p

/-- The full entry-submission loop of `_execute_long` / `_execute_short`:
each row of the normalized table produces its broker call (when one
matches) and the returned order is appended, in row order, to the
open-position orders basket, here represented by the list of submitting
calls. -/
def submitEntryRows (call : ℚ → ℚ → ℚ → Option BrokerCall) (m : ℚ)
    (rows : List (ℚ × ℚ)) (basket : List BrokerCall) : List BrokerCall :=
  basket ++ rows.filterMap (fun r => call m r.1 r.2)

/-- The errors raised by the strategy core (`jesse.exceptions` plus the
plain `Exception` of `_execute_cancel`). -/
inductive JesseErr
| invalidStrategy (msg : String)
| invalidShape (msg : String)
| conflictingRules (msg : String)
| exchangeNotResponding (msg : String)
| plainException (msg : String)
deriving DecidableEq

/-- The entry pipelines that the tail of `_check` can launch. -/
inductive EntryPipeline
| executeLong
| executeShort
deriving DecidableEq

/-- The tail of `_check` (lines 617-628): when the position is closed and
the open-position orders basket is empty, first reject the tick when both
`should_short()` and `should_long()` hold, then run `_execute_long` when
`should_long()` holds and `_execute_short` when `should_short()` holds.
Returns the list of launched entry pipelines in execution order. -/
def checkEntryBlock (posIsClose openOrdersEmpty shouldLong shouldShort : Bool) :
    Except JesseErr (List EntryPipeline) :=
  if posIsClose = true ∧ openOrdersEmpty = true then
    if shouldShort = true ∧ shouldLong = true then
      Except.error (JesseErr.conflictingRules
        "should_short and should_long should not be true at the same time.")
    else
      Except.ok
        ((if shouldLong = true then [EntryPipeline.executeLong] else []) ++
         (if shouldShort = true then [EntryPipeline.executeShort] else []))
  else Except.ok []

/-- The user hooks that `_execute` may invoke, in invocation order. -/
inductive TickHook
| prepareHook
| checkHook
deriving DecidableEq

/-- The part of the strategy state that `_execute` (lines 821-835) touches:
the non-reentrancy flag, the tick counter, and the remaining state `σ`
(mutated only through the `prepare`/`check` hooks). -/
structure ExecState (σ : Type) where
  isExecuting : Bool
  index : ℕ
  core : σ
deriving DecidableEq

/-- `_execute` (lines 821-835): returns immediately when `_is_executing` is
already set; otherwise sets the flag, runs `prepare()` then `_check()`
(whose body may raise, in which case the exception propagates), clears the
flag, and increments `index`. The result also reports which hooks ran. -/
def executeTick {σ : Type} (prepareHook : σ → σ) (checkHook : σ → Except JesseErr σ)
    (s : ExecState σ) : Except JesseErr (ExecState σ × List TickHook) :=
  if s.isExecuting = true then Except.ok (s, [])
  else
    match checkHook (prepareHook s.core) with
    | Except.error e => Except.error e
    | Except.ok c =>
        Except.ok (⟨false, s.index + 1, c⟩, [TickHook.prepareHook, TickHook.checkHook])

/-- The strategy fields that `_reset` (lines 356-372) clears: the four
intents, their effective snapshots, the two log snapshots, the three order
baskets, and the initial quantity. -/
structure StratState where
  buy : Option (List (ℚ × ℚ))
  effBuy : Option (List (ℚ × ℚ))
  sell : Option (List (ℚ × ℚ))
  effSell : Option (List (ℚ × ℚ))
  stopLoss : Option (List (ℚ × ℚ))
  effStopLoss : Option (List (ℚ × ℚ))
  takeProfit : Option (List (ℚ × ℚ))
  effTakeProfit : Option (List (ℚ × ℚ))
  logTakeProfit : Option (List (ℚ × ℚ))
  logStopLoss : Option (List (ℚ × ℚ))
  openPositionOrders : List BrokerCall
  stopLossOrders : List BrokerCall
  takeProfitOrders : List BrokerCall
  initialQty : Option ℚ
deriving DecidableEq

/-- `_reset` (lines 356-372): nulls every intent, snapshot and log, empties
the three baskets, and clears `_initial_qty`. -/
def resetState (_s : StratState) : StratState :=
  ⟨none, none, none, none, none, none, none, none, none, none, [], [], [], none⟩

/-- The externally visible steps of `_execute_cancel` (lines 335-354), in
program order. -/
inductive CancelStep
| brokerCancelAllOrders
| resetFields
| broadcastRouteCanceled
| onCancelHook
| clearOrderStorage
deriving DecidableEq

/-- `_execute_cancel` (lines 335-354): raises a plain `Exception` when the
position is open (before any action); otherwise calls the broker's
`cancel_all_orders`, then `_reset()`, then broadcasts `route-canceled`,
then invokes the `on_cancel()` user hook, and finally (outside unit-testing
and live mode) clears the route's entry in the order store. -/
def executeCancel (posIsOpen isUnitTesting isLive : Bool) (s : StratState) :
    Except JesseErr (StratState × List CancelStep) :=
  if posIsOpen = true then
    Except.error (JesseErr.plainException
      "cannot cancel orders when position is still open. there must be a bug somewhere.")
  else
    Except.ok (resetState s,
      [CancelStep.brokerCancelAllOrders, CancelStep.resetFields,
       CancelStep.broadcastRouteCanceled, CancelStep.onCancelHook] ++
      (if isUnitTesting = false ∧ isLive = false then [CancelStep.clearOrderStorage]
       else []))

/-- The Python value held in `self.buy` / `self.sell` when the entry
pipeline validates it, classified by its Python type: `None`, a `(qty,
price)` tuple, a `[qty, price]` list, a list of pairs, an already
normalized `np.ndarray` table, or any other object. -/
inductive PyEntryVal
| noneVal
| pairTuple (q p : ℚ)
| pairList (q p : ℚ)
| listOfPairs (rows : List (ℚ × ℚ))
| ndarrayTable (rows : List (ℚ × ℚ))
| otherVal
deriving DecidableEq

/-- The validation prologue of `_execute_long` (lines 154-157) and
`_execute_short` (lines 288-291): `InvalidStrategy` when the intent is
`None`, and `InvalidStrategy` when its Python type is not `tuple` or
`list` (note: `np.ndarray` is NOT accepted here, unlike in
`_validate_stop_loss` / `_validate_take_profit`). -/
def validateEntryIntent (v : PyEntryVal) : Except JesseErr Unit :=
  match v with
  | PyEntryVal.noneVal =>
      Except.error (JesseErr.invalidStrategy
        "You forgot to set self.buy. example [qty, price]")
  | PyEntryVal.pairTuple _ _ => Except.ok ()
  | PyEntryVal.pairList _ _ => Except.ok ()
  | PyEntryVal.listOfPairs _ => Except.ok ()
  | PyEntryVal.ndarrayTable _ =>
      Except.error (JesseErr.invalidStrategy
        "self.buy must be either a list or a tuple. example: [qty, price]")
  | PyEntryVal.otherVal =>
      Except.error (JesseErr.invalidStrategy
        "self.buy must be either a list or a tuple. example: [qty, price]")

/-- `_prepare_buy` / `_prepare_sell` (lines 198-216) on a validated value:
a single pair (whose first element is a scalar, not a list/tuple) is
wrapped into a one-row list, then the value is coerced to a numeric table;
the effective snapshot receives a copy. `none` for values the pipeline
rejected. -/
def normalizeEntryIntent (v : PyEntryVal) : Option (List (ℚ × ℚ)) :=
  match v with
  | PyEntryVal.noneVal => none
  | PyEntryVal.pairTuple q p => some [(q, p)]
  | PyEntryVal.pairList q p => some [(q, p)]
  | PyEntryVal.listOfPairs rows => some rows
  | PyEntryVal.ndarrayTable _ => none
  | PyEntryVal.otherVal => none

/-- The take-profit sanity check of `_on_open_position` (lines 636-652):
a long position raises `InvalidStrategy` when a row's price is at or below
the entry price; a short position when it is at or above. -/
def tpRowViolation (t : TradeType) (entryPrice p : ℚ) : Bool :=
  match t with
  | TradeType.long => decide (p ≤ entryPrice)
  | TradeType.short => decide (entryPrice ≤ p)

/-- The stop-loss sanity check of `_on_open_position` (lines 664-681):
a long position raises `InvalidStrategy` when a row's price is at or above
the entry price; a short position when it is at or below. -/
def slRowViolation (t : TradeType) (entryPrice p : ℚ) : Bool :=
  match t with
  | TradeType.long => decide (entryPrice ≤ p)
  | TradeType.short => decide (p ≤ entryPrice)

/-- The common shape of the two child-order submission loops of
`_on_open_position`: rows are processed in order; a row on which the
sanity check `viol` fires raises `InvalidStrategy` (stopping the loop,
with earlier submissions already made); otherwise the row's broker call
`mk` is issued and its order appended to the basket. Returns the submitted
calls in order and whether the exception was raised. -/
def submitRowsLoop (viol : ℚ × ℚ → Bool) (mk : ℚ × ℚ → BrokerCall) :
    List (ℚ × ℚ) → List BrokerCall × Bool
| [] => ([], false)
| r :: rest =>
    if viol r then ([], true)
    else
      let tail := submitRowsLoop viol mk rest
      (mk r :: tail.1, tail.2)

/-- The take-profit submission loop of `_on_open_position` (lines 634-661):
violating rows (per `tpRowViolation`) raise `InvalidStrategy`; passing rows
are submitted via `broker.reduce_position_at` with role CLOSE_POSITION. -/
def submitTakeProfitRows (t : TradeType) (entryPrice : ℚ)
    (rows : List (ℚ × ℚ)) : List BrokerCall × Bool :=
  submitRowsLoop (fun r => tpRowViolation t entryPrice r.2)
    (fun r => BrokerCall.reducePositionAt r.1 r.2 OrderRole.closePosition) rows

/-- The stop-loss submission loop of `_on_open_position` (lines 663-690):
violating rows (per `slRowViolation`) raise `InvalidStrategy`; passing rows
are submitted via `broker.stop_loss_at` with role CLOSE_POSITION. -/
def submitStopLossRows (t : TradeType) (entryPrice : ℚ)
    (rows : List (ℚ × ℚ)) : List BrokerCall × Bool :=
  submitRowsLoop (fun r => slRowViolation t entryPrice r.2)
    (fun r => BrokerCall.stopLossAt r.1 r.2 OrderRole.closePosition) rows

/-- An order as read by the trade recorder `_log_position_update`
(lines 1049-1075): its side, signed quantity, price and executed flag. -/
structure TOrder where
  side : Side
  qty : ℚ
  price : ℚ
  isExecuted : Bool
deriving DecidableEq

/-- The filter of the entry-VWAP loop (lines 1052-1057): executed orders
whose side maps to the trade's direction. -/
def isEntryFill (t : TradeType) (o : TOrder) : Bool :=
  o.isExecuted && decide (sideToType o.side = t)

/-- The filter of the exit-VWAP loop (lines 1066-1071): executed orders
whose side maps to the opposite of the trade's direction. -/
def isExitFill (t : TradeType) (o : TOrder) : Bool :=
  o.isExecuted && decide (¬ sideToType o.side = t)

/-- `sum_qty` of the VWAP loops: the sum of `abs(l.qty)`. -/
def fillQtySum (l : List TOrder) : ℚ :=
  (l.map (fun o => |o.qty|)).sum

/-- `sum_price` of the VWAP loops: the sum of `abs(l.qty) * l.price`. -/
def fillQtyPriceSum (l : List TOrder) : ℚ :=
  (l.map (fun o => |o.qty| * o.price)).sum

/-- `trade.entry_price` as computed at CLOSE_POSITION (lines 1049-1061):
the |qty|-weighted average price over executed orders whose side matches
the trade's direction. -/
def tradeEntryPrice (t : TradeType) (orders : List TOrder) : ℚ :=
  fillQtyPriceSum (orders.filter (isEntryFill t)) /
    fillQtySum (orders.filter (isEntryFill t))

/-- `trade.exit_price` as computed at CLOSE_POSITION (lines 1063-1075):
the |qty|-weighted average price over executed orders whose side opposes
the trade's direction. -/
def tradeExitPrice (t : TradeType) (orders : List TOrder) : ℚ :=
  fillQtyPriceSum (orders.filter (isExitFill t)) /
    fillQtySum (orders.filter (isExitFill t))

/-- A concrete completed-trade order list: one executed BUY fill of 1 at
100 and one executed SELL fill of -1 at 110. -/
def sampleTradeOrders : List TOrder :=
  [⟨Side.buy, 1, 100, true⟩, ⟨Side.sell, -1, 110, true⟩]

/-- A concrete strategy state with a pending entry intent and an initial
quantity set. -/
def sampleStratState : StratState :=
  ⟨some [(1, 100)], some [(1, 100)], none, none, none, none, none, none,
   none, none, [BrokerCall.buyAt 1 100 OrderRole.openPosition], [], [], some 1⟩

/-! ## Helper lemmas -/

/-- The if/elif chain of the entry loops always selects a branch: over the
rationals the three conditions are exhaustive. -/
theorem entryCallLong_total (m q p : ℚ) : ∃ c, entryCallLong m q p = some c := by
  unfold entryCallLong
  rcases lt_trichotomy p m with h | h | h
  · exact ⟨_, by rw [if_neg (by linarith), if_pos h]⟩
  · exact ⟨_, by rw [if_neg (by simp [h]), if_neg (by simp [h]), if_pos h]⟩
  · exact ⟨_, by rw [if_pos h]⟩

/-- As `entryCallLong_total`, for the short entry loop. -/
theorem entryCallShort_total (m q p : ℚ) : ∃ c, entryCallShort m q p = some c := by
  unfold entryCallShort
  rcases lt_trichotomy p m with h | h | h
  · exact ⟨_, by rw [if_pos h]⟩
  · exact ⟨_, by rw [if_neg (by simp [h]), if_neg (by simp [h]), if_pos h]⟩
  · exact ⟨_, by rw [if_neg (by linarith), if_pos h]⟩

/-- A `filterMap` by a function that hits on every element of the list
keeps the list's length. -/
theorem length_filterMap_of_total {α β : Type} (f : α → Option β) (l : List α)
    (h : ∀ a ∈ l, ∃ b, f a = some b) : (l.filterMap f).length = l.length := by
  induction l with
  | nil => simp
  | cons a rest ih =>
      obtain ⟨b, hb⟩ := h a (List.mem_cons_self a rest)
      rw [List.filterMap_cons, hb]
      simp only [List.length_cons]
      rw [ih (fun x hx => h x (List.mem_cons_of_mem a hx))]

/-- The submission loop raises exactly when some row violates the check. -/
theorem submitRowsLoop_raised_iff (viol : ℚ × ℚ → Bool) (mk : ℚ × ℚ → BrokerCall)
    (rows : List (ℚ × ℚ)) :
    (submitRowsLoop viol mk rows).2 = true ↔ ∃ r ∈ rows, viol r = true := by
  induction rows with
  | nil => simp [submitRowsLoop]
  | cons r rest ih =>
      by_cases h : viol r = true
      · simp [submitRowsLoop, h]
      · have h2 : viol r = false := by simpa using h
        simp [submitRowsLoop, h2, ih]

/-- Every call issued by the submission loop comes from a row that passed
the check. -/
theorem submitRowsLoop_mem (viol : ℚ × ℚ → Bool) (mk : ℚ × ℚ → BrokerCall)
    (rows : List (ℚ × ℚ)) :
    ∀ c ∈ (submitRowsLoop viol mk rows).1,
      ∃ r ∈ rows, viol r = false ∧ c = mk r := by
  induction rows with
  | nil => simp [submitRowsLoop]
  | cons r rest ih =>
      by_cases h : viol r = true
      · simp [submitRowsLoop, h]
      · intro c hc
        simp only [submitRowsLoop, h, if_false] at hc
        rcases List.mem_cons.mp hc with hc | hc
        · exact ⟨r, List.mem_cons_self r rest, Bool.not_eq_true _ ▸ h, hc⟩
        · obtain ⟨r2, hr2, hv2, he2⟩ := ih c hc
          exact ⟨r2, List.mem_cons_of_mem r hr2, hv2, he2⟩

/-- When no row violates the check, the submission loop issues exactly one
call per row, in row order. -/
theorem submitRowsLoop_complete (viol : ℚ × ℚ → Bool) (mk : ℚ × ℚ → BrokerCall)
    (rows : List (ℚ × ℚ)) (h : ∀ r ∈ rows, viol r = false) :
    (submitRowsLoop viol mk rows).1 = rows.map mk := by
  induction rows with
  | nil => simp [submitRowsLoop]
  | cons r rest ih =>
      have hr := h r (List.mem_cons_self r rest)
      simp only [submitRowsLoop, hr, Bool.false_eq_true, if_false, List.map_cons]
      rw [ih (fun x hx => h x (List.mem_cons_of_mem r hx))]

/-- The summed absolute fill quantities are nonnegative. -/
theorem fillQtySum_nonneg (l : List TOrder) : 0 ≤ fillQtySum l := by
  induction l with
  | nil => simp [fillQtySum]
  | cons o rest ih =>
      have h := abs_nonneg o.qty
      simp only [fillQtySum, List.map_cons, List.sum_cons] at *
      linarith

/-- A list of orders with a member of nonzero quantity has positive summed
absolute quantity. -/
theorem fillQtySum_pos (l : List TOrder) (h : ∃ o ∈ l, o.qty ≠ 0) :
    0 < fillQtySum l := by
  induction l with
  | nil => simp at h
  | cons o rest ih =>
      simp only [fillQtySum, List.map_cons, List.sum_cons]
      rcases h with ⟨w, hw, hwq⟩
      rcases List.mem_cons.mp hw with hw | hw
      · have h1 : 0 < |w.qty| := abs_pos.mpr hwq
        have h2 : 0 ≤ fillQtySum rest := fillQtySum_nonneg rest
        rw [hw] at h1
        simp only [fillQtySum] at h2
        linarith
      · have h1 : 0 < fillQtySum rest := ih ⟨w, hw, hwq⟩
        have h2 := abs_nonneg o.qty
        simp only [fillQtySum] at h1
        linarith

/-- Weighted-sum bounds: when every price in the list lies in `[lo, hi]`,
the |qty|-weighted price sum lies between `lo` and `hi` times the weight
sum. -/
theorem fillSums_bounds (l : List TOrder) (lo hi : ℚ)
    (h : ∀ o ∈ l, lo ≤ o.price ∧ o.price ≤ hi) :
    lo * fillQtySum l ≤ fillQtyPriceSum l ∧
      fillQtyPriceSum l ≤ hi * fillQtySum l := by
  induction l with
  | nil => simp [fillQtySum, fillQtyPriceSum]
  | cons o rest ih =>
      obtain ⟨hlo, hhi⟩ := h o (List.mem_cons_self o rest)
      obtain ⟨ih1, ih2⟩ := ih (fun x hx => h x (List.mem_cons_of_mem o hx))
      have hq := abs_nonneg o.qty
      simp only [fillQtySum, fillQtyPriceSum, List.map_cons, List.sum_cons] at *
      constructor
      · nlinarith
      · nlinarith

/-- A nonempty list of orders has a minimum and a maximum price, both
attained on the list. -/
theorem exists_min_max_price (l : List TOrder) (h : l ≠ []) :
    ∃ lo ∈ l.map (fun o => o.price), ∃ hi ∈ l.map (fun o => o.price),
      ∀ o ∈ l, lo ≤ o.price ∧ o.price ≤ hi := by
  induction l with
  | nil => exact absurd rfl h
  | cons o rest ih =>
      rcases eq_or_ne rest [] with hrest | hrest
      · subst hrest
        refine ⟨o.price, by simp, o.price, by simp, ?_⟩
        intro x hx
        rcases List.mem_cons.mp hx with hx | hx
        · rw [hx]; exact ⟨le_refl _, le_refl _⟩
        · simp at hx
      · obtain ⟨lo, hlo, hi, hhi, hbound⟩ := ih hrest
        refine ⟨min o.price lo, ?_, max o.price hi, ?_, ?_⟩
        · rcases min_cases o.price lo with ⟨he, _⟩ | ⟨he, _⟩
          · rw [he]; simp
          · rw [he]; simp only [List.map_cons, List.mem_cons]; right; exact hlo
        · rcases max_cases o.price hi with ⟨he, _⟩ | ⟨he, _⟩
          · rw [he]; simp
          · rw [he]; simp only [List.map_cons, List.mem_cons]; right; exact hhi
        · intro x hx
          rcases List.mem_cons.mp hx with hx | hx
          · rw [hx]
            exact ⟨min_le_left _ _, le_max_left _ _⟩
          · obtain ⟨h1, h2⟩ := hbound x hx
            exact ⟨le_trans (min_le_right _ _) h1, le_trans h2 (le_max_right _ _)⟩

/-- The |qty|-weighted average price of a nonempty list of orders of
nonzero quantity satisfies the defining VWAP equation and lies between the
minimum and the maximum price of the list. -/
theorem vwap_bounds (l : List TOrder) (hne : l ≠ []) (hq : ∀ o ∈ l, o.qty ≠ 0) :
    fillQtyPriceSum l / fillQtySum l * fillQtySum l = fillQtyPriceSum l ∧
    ∃ lo ∈ l.map (fun o => o.price), ∃ hi ∈ l.map (fun o => o.price),
      (∀ o ∈ l, lo ≤ o.price ∧ o.price ≤ hi) ∧
      lo ≤ fillQtyPriceSum l / fillQtySum l ∧
      fillQtyPriceSum l / fillQtySum l ≤ hi := by
  obtain ⟨w, hw⟩ := List.exists_mem_of_ne_nil l hne
  have hspos : 0 < fillQtySum l := fillQtySum_pos l ⟨w, hw, hq w hw⟩
  refine ⟨div_mul_cancel₀ _ (ne_of_gt hspos), ?_⟩
  obtain ⟨lo, hlo, hi, hhi, hbound⟩ := exists_min_max_price l hne
  obtain ⟨hsum1, hsum2⟩ := fillSums_bounds l lo hi hbound
  refine ⟨lo, hlo, hi, hhi, hbound, ?_, ?_⟩
  · exact (le_div_iff₀ hspos).mpr hsum1
  · exact (div_le_iff₀ hspos).mpr hsum2

/-! ## The claims -/

/-- Claim C1: for every executed order handed to `_on_updated_position`,
the role is reassigned to INCREASE_POSITION when it was OPEN_POSITION and
the absolute post-execution position quantity differs from the absolute
order quantity, to REDUCE_POSITION when it was CLOSE_POSITION and the
position is still open, and kept otherwise; and the dispatched lifecycle
handler is a function of the resulting role together with the order's
membership in the take-profit / stop-loss baskets. -/
theorem claim_C1 (role : OrderRole) (posQty orderQty : ℚ)
    (posIsOpen inTP inSL : Bool) :
    reclassifyRole role posQty orderQty posIsOpen =
      (if role = OrderRole.openPosition ∧ |posQty| ≠ |orderQty| then
        OrderRole.increasePosition
      else if role = OrderRole.closePosition ∧ posIsOpen = true then
        OrderRole.reducePosition
      else role) ∧
    onUpdatedPositionHandler role posQty orderQty posIsOpen inTP inSL =
      dispatchHandler (reclassifyRole role posQty orderQty posIsOpen) inTP inSL := by
  constructor
  · cases role <;>
      simp only [reclassifyRole] <;>
      by_cases hq : |posQty| = |orderQty| <;>
      cases posIsOpen <;>
      simp [hq]
  · rfl

/-- Claim C3: `_execute` is non-reentrant: a call made while
`_is_executing` already holds returns immediately, invoking no hook and
changing no state; a call from a quiescent state that returns normally
leaves `_is_executing` false and has incremented `index` by exactly 1. -/
theorem claim_C3 {σ : Type} (prepareHook : σ → σ) (checkHook : σ → Except JesseErr σ)
    (s : ExecState σ) :
    (s.isExecuting = false →
      ∀ s2 hooks, executeTick prepareHook checkHook s = Except.ok (s2, hooks) →
        s2.isExecuting = false ∧ s2.index = s.index + 1) ∧
    (s.isExecuting = true →
      executeTick prepareHook checkHook s = Except.ok (s, [])) := by
  constructor
  · intro h s2 hooks heq
    rw [executeTick, if_neg (by simp [h])] at heq
    cases hc : checkHook (prepareHook s.core) with
    | error e => rw [hc] at heq; exact absurd heq (by simp)
    | ok c =>
        rw [hc] at heq
        have h2 : s2 = ⟨false, s.index + 1, c⟩ := by
          cases heq; rfl
        rw [h2]
        exact ⟨rfl, rfl⟩
  · intro h
    rw [executeTick, if_pos h]

/-- Claim C4: on a tick with a closed position and an empty open-orders
basket, `_check` raises `ConflictingRules` (launching no entry pipeline)
when `should_long` and `should_short` are both true, and launches exactly
the matching entry pipeline when exactly one of them is true. -/
theorem claim_C4 (shouldLong shouldShort : Bool) :
    (shouldLong = true → shouldShort = true →
      checkEntryBlock true true shouldLong shouldShort =
        Except.error (JesseErr.conflictingRules
          "should_short and should_long should not be true at the same time.")) ∧
    (shouldLong = true → shouldShort = false →
      checkEntryBlock true true shouldLong shouldShort =
        Except.ok [EntryPipeline.executeLong]) ∧
    (shouldLong = false → shouldShort = true →
      checkEntryBlock true true shouldLong shouldShort =
        Except.ok [EntryPipeline.executeShort]) := by
  cases shouldLong <;> cases shouldShort <;>
    refine ⟨?_, ?_, ?_⟩ <;> intro h1 h2 <;>
    first
    | rfl
    | exact absurd h1 (by decide)
    | exact absurd h2 (by decide)

/-- Claim C10: when the position is closed, `is_reduced` and
`is_increased` return `None`; when it is open, `is_reduced` is true
exactly when the position quantity is strictly below the initial quantity
and `is_increased` exactly when it is strictly above. -/
theorem claim_C10 (posQty initialQty : ℚ) :
    (is_reduced true posQty initialQty = none ∧
     is_increased true posQty initialQty = none) ∧
    (is_reduced false posQty initialQty = some true ↔ posQty < initialQty) ∧
    (is_increased false posQty initialQty = some true ↔ initialQty < posQty) := by
  refine ⟨⟨rfl, rfl⟩, ?_, ?_⟩ <;> simp [is_reduced, is_increased]

/-- Claim C5: in the OPEN_POSITION handler, a take-profit row violates the
check exactly when its price is not strictly above the entry price for a
long (mirrored for a short), a stop-loss row exactly when its price is not
strictly below the entry price for a long (mirrored); the handler raises
`InvalidStrategy` exactly when a violating row exists; every submitted
child order comes from a row that passed its check, as a close-side call
(`reduce_position_at` / `stop_loss_at` with role CLOSE_POSITION); and when
no row violates, every row is submitted. -/
theorem claim_C5 (t : TradeType) (entryPrice p : ℚ) (rows : List (ℚ × ℚ)) :
    (tpRowViolation t entryPrice p = true ↔
      ((t = TradeType.long ∧ p ≤ entryPrice) ∨
       (t = TradeType.short ∧ entryPrice ≤ p))) ∧
    (slRowViolation t entryPrice p = true ↔
      ((t = TradeType.long ∧ entryPrice ≤ p) ∨
       (t = TradeType.short ∧ p ≤ entryPrice))) ∧
    ((submitTakeProfitRows t entryPrice rows).2 = true ↔
      ∃ r ∈ rows, tpRowViolation t entryPrice r.2 = true) ∧
    (∀ c ∈ (submitTakeProfitRows t entryPrice rows).1, ∃ r ∈ rows,
      tpRowViolation t entryPrice r.2 = false ∧
      c = BrokerCall.reducePositionAt r.1 r.2 OrderRole.closePosition) ∧
    ((∀ r ∈ rows, tpRowViolation t entryPrice r.2 = false) →
      (submitTakeProfitRows t entryPrice rows).1 = rows.map
        (fun r => BrokerCall.reducePositionAt r.1 r.2 OrderRole.closePosition)) ∧
    ((submitStopLossRows t entryPrice rows).2 = true ↔
      ∃ r ∈ rows, slRowViolation t entryPrice r.2 = true) ∧
    (∀ c ∈ (submitStopLossRows t entryPrice rows).1, ∃ r ∈ rows,
      slRowViolation t entryPrice r.2 = false ∧
      c = BrokerCall.stopLossAt r.1 r.2 OrderRole.closePosition) ∧
    ((∀ r ∈ rows, slRowViolation t entryPrice r.2 = false) →
      (submitStopLossRows t entryPrice rows).1 = rows.map
        (fun r => BrokerCall.stopLossAt r.1 r.2 OrderRole.closePosition)) := by
  refine ⟨?_, ?_,
    submitRowsLoop_raised_iff _ _ _, submitRowsLoop_mem _ _ _,
    submitRowsLoop_complete _ _ _,
    submitRowsLoop_raised_iff _ _ _, submitRowsLoop_mem _ _ _,
    submitRowsLoop_complete _ _ _⟩
  · cases t <;> simp [tpRowViolation]
  · cases t <;> simp [slRowViolation]

/-- Witness for claim C5 at concrete inputs: a long with entry price 100;
the take-profit row (1, 90) violates and raises, the take-profit basket
for rows [(1, 110), (1, 90)] holds only the passing call, and the
stop-loss row (2, 80) is submitted as a stop-loss child order. -/
theorem claim_C5_witness :
    (submitTakeProfitRows TradeType.long 100 [(1, 90)]).2 = true ∧
    (∃ r ∈ [((1 : ℚ), (110 : ℚ)), ((1 : ℚ), (90 : ℚ))],
      tpRowViolation TradeType.long 100 r.2 = false ∧
      BrokerCall.reducePositionAt 1 110 OrderRole.closePosition =
        BrokerCall.reducePositionAt r.1 r.2 OrderRole.closePosition) ∧
    (submitStopLossRows TradeType.long 100 [(2, 80)]).1 =
      [BrokerCall.stopLossAt 2 80 OrderRole.closePosition] := by
  refine ⟨?_, ?_, ?_⟩
  · exact (claim_C5 TradeType.long 100 0 [(1, 90)]).2.2.1.mpr
      ⟨(1, 90), by decide, by decide⟩
  · exact (claim_C5 TradeType.long 100 0 [(1, 110), (1, 90)]).2.2.2.1
      (BrokerCall.reducePositionAt 1 110 OrderRole.closePosition) (by decide)
  · have h := (claim_C5 TradeType.long 100 0 [(2, 80)]).2.2.2.2.2.2.2 (by decide)
    simpa using h

/-- Claim C6: each row `(q, p)` of the normalized entry table, against
mark price `m`: equality selects MARKET; for a BUY entry `p > m` selects a
stop-entry and `p < m` a limit buy; for a SELL entry `p < m` selects a
stop-entry and `p > m` a limit sell; and the submission loop issues
exactly one broker call per row, appending the returned orders to the
open-orders basket. -/
theorem claim_C6 (m q p : ℚ) (rows : List (ℚ × ℚ)) (basket : List BrokerCall) :
    (p = m →
      entryCallLong m q p =
        some (BrokerCall.buyAtMarket q OrderRole.openPosition) ∧
      entryCallShort m q p =
        some (BrokerCall.sellAtMarket q OrderRole.openPosition)) ∧
    (m < p →
      entryCallLong m q p =
        some (BrokerCall.startProfitAt Side.buy q p OrderRole.openPosition) ∧
      entryCallShort m q p =
        some (BrokerCall.sellAt q p OrderRole.openPosition)) ∧
    (p < m →
      entryCallLong m q p =
        some (BrokerCall.buyAt q p OrderRole.openPosition) ∧
      entryCallShort m q p =
        some (BrokerCall.startProfitAt Side.sell q p OrderRole.openPosition)) ∧
    (submitEntryRows entryCallLong m rows basket).length =
      basket.length + rows.length ∧
    (submitEntryRows entryCallShort m rows basket).length =
      basket.length + rows.length := by
  refine ⟨?_, ?_, ?_, ?_, ?_⟩
  · intro h
    subst h
    constructor <;> simp [entryCallLong, entryCallShort]
  · intro h
    constructor
    · unfold entryCallLong
      rw [if_pos h]
    · unfold entryCallShort
      rw [if_neg (by linarith), if_pos h]
  · intro h
    constructor
    · unfold entryCallLong
      rw [if_neg (by linarith), if_pos h]
    · unfold entryCallShort
      rw [if_pos h]
  · unfold submitEntryRows
    rw [List.length_append,
      length_filterMap_of_total _ _ (fun r _ => entryCallLong_total m r.1 r.2)]
  · unfold submitEntryRows
    rw [List.length_append,
      length_filterMap_of_total _ _ (fun r _ => entryCallShort_total m r.1 r.2)]

/-- Witness for claim C6 at mark price 100: a market buy at the mark, a
limit sell above the mark, a limit buy below the mark, and a three-row
table submitting exactly three orders. -/
theorem claim_C6_witness :
    entryCallLong 100 2 100 =
      some (BrokerCall.buyAtMarket 2 OrderRole.openPosition) ∧
    entryCallShort 100 2 105 =
      some (BrokerCall.sellAt 2 105 OrderRole.openPosition) ∧
    entryCallLong 100 2 95 =
      some (BrokerCall.buyAt 2 95 OrderRole.openPosition) ∧
    (submitEntryRows entryCallLong 100 [(1, 90), (1, 100), (1, 110)] []).length =
      0 + 3 := by
  refine ⟨((claim_C6 100 2 100 [] []).1 rfl).1,
    ((claim_C6 100 2 105 [] []).2.1 (by norm_num)).2,
    ((claim_C6 100 2 95 [] []).2.2.1 (by norm_num)).1,
    (claim_C6 100 1 0 [(1, 90), (1, 100), (1, 110)] []).2.2.2.1⟩

/-- Claim C2 (code evaluation at the failing input): in the SHORT branch
of the reconciler, the new entry row (1, 110) against mark 100 is
submitted through `start_profit_at` with side BUY, and the row (1, 90) as
a plain limit sell — whereas the initial short entry pipeline
(`_execute_short`, last two conjuncts) submits the stop-entry with side
SELL below the mark and the limit sell above the mark, as the claim
states. -/
theorem claim_C2_code_eval :
    reconcileShortEntryCall 100 1 110 =
      some (BrokerCall.startProfitAt Side.buy 1 110 OrderRole.openPosition) ∧
    reconcileShortEntryCall 100 1 90 =
      some (BrokerCall.sellAt 1 90 OrderRole.openPosition) ∧
    entryCallShort 100 1 90 =
      some (BrokerCall.startProfitAt Side.sell 1 90 OrderRole.openPosition) ∧
    entryCallShort 100 1 110 =
      some (BrokerCall.sellAt 1 110 OrderRole.openPosition) := by
  refine ⟨?_, ?_, ?_, ?_⟩ <;> decide

/-- Claim C7: `execute_cancel` raises a plain `Exception` whenever the
position is open (before any side effect, so the state is untouched);
with a closed position it performs, in order, the broker-level
cancel-all, the `reset()` that nulls every intent, snapshot, basket and
the initial quantity, the `route-canceled` broadcast, and the
`on_cancel()` user hook. -/
theorem claim_C7 (isUnitTesting isLive : Bool) (s : StratState) :
    executeCancel true isUnitTesting isLive s =
      Except.error (JesseErr.plainException
        "cannot cancel orders when position is still open. there must be a bug somewhere.") ∧
    (∀ s2 steps, executeCancel false isUnitTesting isLive s = Except.ok (s2, steps) →
      s2.buy = none ∧ s2.effBuy = none ∧ s2.sell = none ∧ s2.effSell = none ∧
      s2.stopLoss = none ∧ s2.effStopLoss = none ∧ s2.takeProfit = none ∧
      s2.effTakeProfit = none ∧ s2.logTakeProfit = none ∧ s2.logStopLoss = none ∧
      s2.openPositionOrders = [] ∧ s2.stopLossOrders = [] ∧
      s2.takeProfitOrders = [] ∧ s2.initialQty = none ∧
      steps.take 4 = [CancelStep.brokerCancelAllOrders, CancelStep.resetFields,
        CancelStep.broadcastRouteCanceled, CancelStep.onCancelHook]) := by
  constructor
  · rfl
  · intro s2 steps heq
    have hval : executeCancel false isUnitTesting isLive s =
        Except.ok (resetState s,
          [CancelStep.brokerCancelAllOrders, CancelStep.resetFields,
           CancelStep.broadcastRouteCanceled, CancelStep.onCancelHook] ++
          (if isUnitTesting = false ∧ isLive = false then
            [CancelStep.clearOrderStorage] else [])) := by
      rw [executeCancel, if_neg (by decide)]
    rw [hval] at heq
    simp only [Except.ok.injEq, Prod.mk.injEq] at heq
    obtain ⟨hs2, hsteps⟩ := heq
    rw [← hs2, ← hsteps]
    refine ⟨rfl, rfl, rfl, rfl, rfl, rfl, rfl, rfl, rfl, rfl, rfl, rfl, rfl, rfl, ?_⟩
    by_cases h : isUnitTesting = false ∧ isLive = false <;> simp [h]

/-- Witness for claim C7 at a concrete populated state: cancellation with
an open position fails, and with a closed position (in unit-testing mode)
the reset state is fully cleared and the first four steps are in the
claimed order. -/
theorem claim_C7_witness :
    executeCancel true true false sampleStratState =
      Except.error (JesseErr.plainException
        "cannot cancel orders when position is still open. there must be a bug somewhere.") ∧
    ((resetState sampleStratState).buy = none ∧
     (resetState sampleStratState).effBuy = none ∧
     (resetState sampleStratState).sell = none ∧
     (resetState sampleStratState).effSell = none ∧
     (resetState sampleStratState).stopLoss = none ∧
     (resetState sampleStratState).effStopLoss = none ∧
     (resetState sampleStratState).takeProfit = none ∧
     (resetState sampleStratState).effTakeProfit = none ∧
     (resetState sampleStratState).logTakeProfit = none ∧
     (resetState sampleStratState).logStopLoss = none ∧
     (resetState sampleStratState).openPositionOrders = [] ∧
     (resetState sampleStratState).stopLossOrders = [] ∧
     (resetState sampleStratState).takeProfitOrders = [] ∧
     (resetState sampleStratState).initialQty = none ∧
     ([CancelStep.brokerCancelAllOrders, CancelStep.resetFields,
       CancelStep.broadcastRouteCanceled, CancelStep.onCancelHook] : List CancelStep).take 4 =
       [CancelStep.brokerCancelAllOrders, CancelStep.resetFields,
        CancelStep.broadcastRouteCanceled, CancelStep.onCancelHook]) :=
  ⟨(claim_C7 true false sampleStratState).1,
   (claim_C7 true false sampleStratState).2 (resetState sampleStratState)
     [CancelStep.brokerCancelAllOrders, CancelStep.resetFields,
      CancelStep.broadcastRouteCanceled, CancelStep.onCancelHook] rfl⟩

/-- Claim C8: in a completed trade with at least one executed fill on each
of the entry and the exit side (all orders of nonzero quantity), the
recorded entry price satisfies the |qty|-weighted-average equation over
the executed orders whose side matches the trade's direction, the exit
price over those whose side opposes it, and each lies within the closed
interval between the minimum and maximum fill price of its side. -/
theorem claim_C8 (t : TradeType) (orders : List TOrder)
    (hentry : ∃ o ∈ orders, isEntryFill t o = true)
    (hexit : ∃ o ∈ orders, isExitFill t o = true)
    (hq : ∀ o ∈ orders, o.qty ≠ 0) :
    (tradeEntryPrice t orders * fillQtySum (orders.filter (isEntryFill t)) =
       fillQtyPriceSum (orders.filter (isEntryFill t))) ∧
    (tradeExitPrice t orders * fillQtySum (orders.filter (isExitFill t)) =
       fillQtyPriceSum (orders.filter (isExitFill t))) ∧
    (∃ lo ∈ (orders.filter (isEntryFill t)).map (fun o => o.price),
     ∃ hi ∈ (orders.filter (isEntryFill t)).map (fun o => o.price),
       (∀ o ∈ orders.filter (isEntryFill t), lo ≤ o.price ∧ o.price ≤ hi) ∧
       lo ≤ tradeEntryPrice t orders ∧ tradeEntryPrice t orders ≤ hi) ∧
    (∃ lo ∈ (orders.filter (isExitFill t)).map (fun o => o.price),
     ∃ hi ∈ (orders.filter (isExitFill t)).map (fun o => o.price),
       (∀ o ∈ orders.filter (isExitFill t), lo ≤ o.price ∧ o.price ≤ hi) ∧
       lo ≤ tradeExitPrice t orders ∧ tradeExitPrice t orders ≤ hi) := by
  obtain ⟨oe, hoe, hoef⟩ := hentry
  obtain ⟨ox, hox, hoxf⟩ := hexit
  have hene : orders.filter (isEntryFill t) ≠ [] :=
    List.ne_nil_of_mem (List.mem_filter.mpr ⟨hoe, hoef⟩)
  have hxne : orders.filter (isExitFill t) ≠ [] :=
    List.ne_nil_of_mem (List.mem_filter.mpr ⟨hox, hoxf⟩)
  have hqe : ∀ o ∈ orders.filter (isEntryFill t), o.qty ≠ 0 :=
    fun o ho => hq o (List.mem_filter.mp ho).1
  have hqx : ∀ o ∈ orders.filter (isExitFill t), o.qty ≠ 0 :=
    fun o ho => hq o (List.mem_filter.mp ho).1
  obtain ⟨he1, he2⟩ := vwap_bounds _ hene hqe
  obtain ⟨hx1, hx2⟩ := vwap_bounds _ hxne hqx
  exact ⟨he1, hx1, he2, hx2⟩

/-- Witness for claim C8 at a concrete long trade: one executed BUY fill
of 1 at 100 and one executed SELL fill of -1 at 110; entry price 100 and
exit price 110, with the VWAP equation obtained from the theorem. -/
theorem claim_C8_witness :
    (∃ o ∈ sampleTradeOrders, isEntryFill TradeType.long o = true) ∧
    (∃ o ∈ sampleTradeOrders, isExitFill TradeType.long o = true) ∧
    (∀ o ∈ sampleTradeOrders, o.qty ≠ 0) ∧
    tradeEntryPrice TradeType.long sampleTradeOrders = 100 ∧
    tradeExitPrice TradeType.long sampleTradeOrders = 110 ∧
    (tradeEntryPrice TradeType.long sampleTradeOrders *
        fillQtySum (sampleTradeOrders.filter (isEntryFill TradeType.long)) =
      fillQtyPriceSum (sampleTradeOrders.filter (isEntryFill TradeType.long))) :=
  ⟨by decide, by decide, by decide,
   by
     simp only [tradeEntryPrice, sampleTradeOrders, fillQtySum, fillQtyPriceSum,
       isEntryFill, sideToType, List.filter_cons, List.filter_nil]
     simp,
   by
     simp only [tradeExitPrice, sampleTradeOrders, fillQtySum, fillQtyPriceSum,
       isExitFill, sideToType, List.filter_cons, List.filter_nil]
     simp,
   (claim_C8 TradeType.long sampleTradeOrders (by decide) (by decide) (by decide)).1⟩

/-- Claim C9 counterexample: an already-normalized numeric table (a numpy
array) is one of the accepted intent shapes per the claim, yet the entry
pipeline's validation rejects it with `InvalidStrategy`. -/
theorem claim_C9_counterexample :
    validateEntryIntent (PyEntryVal.ndarrayTable [(1, 100)]) =
      Except.error (JesseErr.invalidStrategy
        "self.buy must be either a list or a tuple. example: [qty, price]") := rfl

/-- Claim C9 (amended): the entry pipelines accept the buy (resp. sell)
intent only as a tuple or list — a single (qty, price) pair or a list of
pairs — raising `InvalidStrategy` when the intent is null or of any other
type, including an already-normalized numeric table; accepted values are
then normalized into the snapshot table. -/
theorem claim_C9 (q p : ℚ) (rows : List (ℚ × ℚ)) :
    validateEntryIntent (PyEntryVal.pairTuple q p) = Except.ok () ∧
    validateEntryIntent (PyEntryVal.pairList q p) = Except.ok () ∧
    validateEntryIntent (PyEntryVal.listOfPairs rows) = Except.ok () ∧
    (∀ v : PyEntryVal, validateEntryIntent v = Except.ok () →
      ∃ tbl, normalizeEntryIntent v = some tbl) ∧
    normalizeEntryIntent (PyEntryVal.pairTuple q p) = some [(q, p)] ∧
    normalizeEntryIntent (PyEntryVal.pairList q p) = some [(q, p)] ∧
    normalizeEntryIntent (PyEntryVal.listOfPairs rows) = some rows ∧
    validateEntryIntent PyEntryVal.noneVal =
      Except.error (JesseErr.invalidStrategy
        "You forgot to set self.buy. example [qty, price]") ∧
    validateEntryIntent (PyEntryVal.ndarrayTable rows) =
      Except.error (JesseErr.invalidStrategy
        "self.buy must be either a list or a tuple. example: [qty, price]") ∧
    validateEntryIntent PyEntryVal.otherVal =
      Except.error (JesseErr.invalidStrategy
        "self.buy must be either a list or a tuple. example: [qty, price]") := by
  refine ⟨rfl, rfl, rfl, ?_, rfl, rfl, rfl, rfl, rfl, rfl⟩
  intro v hv
  cases v with
  | noneVal => exact absurd hv (by simp [validateEntryIntent])
  | pairTuple q2 p2 => exact ⟨[(q2, p2)], rfl⟩
  | pairList q2 p2 => exact ⟨[(q2, p2)], rfl⟩
  | listOfPairs rows2 => exact ⟨rows2, rfl⟩
  | ndarrayTable rows2 => exact absurd hv (by simp [validateEntryIntent])
  | otherVal => exact absurd hv (by simp [validateEntryIntent])

/-- Witness for claim C9 at a concrete accepted value: the pair (1, 100)
passes validation and normalizes to a one-row table. -/
theorem claim_C9_witness :
    validateEntryIntent (PyEntryVal.pairTuple 1 100) = Except.ok () ∧
    (∃ tbl, normalizeEntryIntent (PyEntryVal.pairTuple 1 100) = some tbl) :=
  ⟨(claim_C9 1 100 []).1,
   (claim_C9 1 100 []).2.2.2.1 (PyEntryVal.pairTuple 1 100) (claim_C9 1 100 []).1⟩

/-- Witness for claim C1 at concrete inputs: an OPEN_POSITION fill whose
quantity differs from the position's becomes INCREASE_POSITION, a
CLOSE_POSITION fill with the position still open becomes REDUCE_POSITION,
and the dispatch factors through the reassigned role. -/
theorem claim_C1_witness :
    reclassifyRole OrderRole.openPosition 2 1 true = OrderRole.increasePosition ∧
    reclassifyRole OrderRole.closePosition 1 1 true = OrderRole.reducePosition ∧
    onUpdatedPositionHandler OrderRole.closePosition 1 1 false true false =
      dispatchHandler (reclassifyRole OrderRole.closePosition 1 1 false) true false := by
  refine ⟨?_, ?_, (claim_C1 OrderRole.closePosition 1 1 false true false).2⟩
  · have h := (claim_C1 OrderRole.openPosition 2 1 true true false).1
    rw [h]
    norm_num [abs_two, abs_one]
  · have h := (claim_C1 OrderRole.closePosition 1 1 true true false).1
    rw [h]
    simp

/-- Witness for claim C3 at concrete states over a trivial core: a
quiescent call increments the index and clears the flag; a call with the
flag already set returns the state unchanged with no hook invoked. -/
theorem claim_C3_witness :
    ((⟨false, 4, 0⟩ : ExecState ℕ).isExecuting = false ∧
      (⟨false, 4, 0⟩ : ExecState ℕ).index = 3 + 1) ∧
    executeTick (fun x => x) (fun x => Except.ok x) (⟨true, 3, 0⟩ : ExecState ℕ) =
      Except.ok (⟨true, 3, 0⟩, []) :=
  ⟨(claim_C3 (fun x => x) (fun x => Except.ok x) (⟨false, 3, 0⟩ : ExecState ℕ)).1
      rfl ⟨false, 4, 0⟩ [TickHook.prepareHook, TickHook.checkHook] rfl,
   (claim_C3 (fun x => x) (fun x => Except.ok x) (⟨true, 3, 0⟩ : ExecState ℕ)).2 rfl⟩

/-- Witness for claim C4 at concrete rule outcomes: both rules true raise
`ConflictingRules`; exactly one true launches the matching pipeline. -/
theorem claim_C4_witness :
    checkEntryBlock true true true true =
      Except.error (JesseErr.conflictingRules
        "should_short and should_long should not be true at the same time.") ∧
    checkEntryBlock true true true false = Except.ok [EntryPipeline.executeLong] ∧
    checkEntryBlock true true false true = Except.ok [EntryPipeline.executeShort] :=
  ⟨(claim_C4 true true).1 rfl rfl,
   (claim_C4 true false).2.1 rfl rfl,
   (claim_C4 false true).2.2 rfl rfl⟩

/-- Witness for claim C10 at concrete quantities: a closed position yields
`None`; an open position with quantity 1 against initial quantity 2 is
reduced. -/
theorem claim_C10_witness :
    is_reduced true 1 2 = none ∧ is_reduced false 1 2 = some true :=
  ⟨(claim_C10 1 2).1.1, (claim_C10 1 2).2.1.mpr (by norm_num)⟩

end Jesse
